import Mathlib

/-!
Verification of the free.dm IPC connection manager (freedm.utils.ipc) against
its specification.  The Python sources embedded here are:

* `freedm/utils/ipc/client/base.py` — `IPCSocketClient`: the connection
  lifecycle controller (`__aexit__`, `connected`, `closeConnection`,
  `_assembleConnection`) and the chunked/limited read loop
  (`_handleConnection`).
* `freedm/utils/ipc/server/uxd.py` — `UXDSocketServer`: socket-path setup in
  `__aenter__` and the peer-credential variant of `_assembleConnection`.

Machine integers are modelled as `Nat`/`Int` (Python integers are unbounded);
stream I/O is modelled by an explicit script of read events chosen by the
environment; Python `raise` is modelled with `Except`.
-/

/-! ## Data model -/

/-- Modelled from the spec: the connection mode enumeration from
`freedm.utils.ipc.connection` (module not present in the sources);
`mode ∈ {EPHEMERAL, PERSISTENT}`. -/
inductive ConnectionType where
  | EPHEMERAL
  | PERSISTENT
deriving DecidableEq, Repr

/-- The mutable lifecycle state record of a connection: the source stores it
as the dict `{mode, created, updated, closed}`; timestamps are modelled as
`Nat` (`closed` is `none` until the connection is torn down). -/
structure ConnState where
  mode : ConnectionType
  created : Nat
  updated : Nat
  closed : Option Nat
deriving DecidableEq, Repr

/-- Modelled from the spec: the `Connection` entity from
`freedm.utils.ipc.connection` (module not present in the sources): identity
fields plus the lifecycle state.  The opaque reader/writer/socket handles are
not part of the value; the stream's observable behaviour is supplied
separately as an environment. -/
structure Connection where
  pid : Option Int
  uid : Option Int
  gid : Option Int
  client_address : Option String
  server_address : Option String
  state : ConnState
deriving DecidableEq, Repr

/-- Python truthiness of an optional integer field (`None` and `0` are falsy),
used wherever the source writes `if self.limit:`, `self.limit or -1`, … -/
def optNatTruthy : Option Nat → Bool
  | none => false
  | some n => n != 0

/-! ## Peer-credential decoding (uxd.py `_assembleConnection`)

`struct.unpack('3i', credentials)` on the 12-byte record returned by
`getsockopt(SOL_SOCKET, SO_PEERCRED, struct.calcsize('3i'))`: three native
(little-endian on the target platforms) 4-byte signed integers. -/

/-- Assemble an unsigned 32-bit value from four little-endian bytes. -/
def le32 (b0 b1 b2 b3 : Nat) : Nat :=
  b0 + 256 * b1 + 65536 * b2 + 16777216 * b3

/-- Reinterpret an unsigned 32-bit value as a signed 32-bit integer
(two's complement), as `struct.unpack` format character `i` does. -/
def toSigned32 (u : Nat) : Int :=
  if u < 2 ^ 31 then (u : Int) else (u : Int) - 2 ^ 32

/-- Decode the signed 32-bit integer stored at byte offset `i` of `bs`. -/
def int32At (bs : List Nat) (i : Nat) : Int :=
  toSigned32 (le32 (bs.getD i 0) (bs.getD (i + 1) 0) (bs.getD (i + 2) 0) (bs.getD (i + 3) 0))

/-- `struct.unpack('3i', bs)`: the three signed integers `(pid, uid, gid)`. -/
def unpack3i (bs : List Nat) : Int × Int × Int :=
  (int32At bs 0, int32At bs 4, int32At bs 8)

/-! ## Connection assembly (the two transport adapters) -/

/-- `IPCSocketClient._assembleConnection` (client/base.py lines 126-145), the
network-stream shape: no peer credentials, addresses left `None`, state
initialised to `{mode: self.mode or PERSISTENT, created: now, updated: now,
closed: None}`.  `mode` is the configured `self.mode`, `now` the value of
`time.time()`. -/
def clientAssembleConnection (mode : Option ConnectionType) (now : Nat) : Connection :=
  { pid := none
    uid := none
    gid := none
    client_address := none
    server_address := none
    state := { mode := mode.getD ConnectionType.PERSISTENT
               created := now
               updated := now
               closed := none } }

/-- `UXDSocketServer._assembleConnection` (server/uxd.py lines 97-116): reads
the `SO_PEERCRED` record of the peer (passed here as the byte list
`credentials`) and unpacks it into `pid`, `uid`, `gid`; everything else is
assembled exactly as in the network variant. -/
def uxdAssembleConnection (mode : Option ConnectionType) (now : Nat)
    (credentials : List Nat) : Connection :=
  { pid := some (unpack3i credentials).1
    uid := some (unpack3i credentials).2.1
    gid := some (unpack3i credentials).2.2
    client_address := none
    server_address := none
    state := { mode := mode.getD ConnectionType.PERSISTENT
               created := now
               updated := now
               closed := none } }

/-! ## Close handshake (client/base.py `closeConnection`, lines 147-167) -/

/-- Snapshot of the stream-level facts `closeConnection` consults, plus
whether any step of its `try` block (feed_eof / write_eof / sleep / close)
faults in this run — the bare `except: pass` swallows every such fault. -/
structure StreamEnv where
  isClosing : Bool
  atEof : Bool
  canWriteEof : Bool
  stepFault : Bool
deriving DecidableEq, Repr

/-- Which branch of the handshake ran: `byServer` when `reader.at_eof()` was
already true (peer closed first), `byClient` otherwise. -/
inductive CloseBranch where
  | byServer
  | byClient
deriving DecidableEq, Repr

/-- Observable outcome of one `closeConnection` call: the connection state
afterwards, the branch taken (`none` when the `is_closing` guard skipped the
whole body), and whether the `try` block completed without fault. -/
structure CloseOutcome where
  state : ConnState
  branch : Option CloseBranch
  handshakeCompleted : Bool
deriving DecidableEq, Repr

/-- `IPCSocketClient.closeConnection`: the entire body is guarded by
`if not connection.writer.transport.is_closing()`.  Inside, the branch on
`reader.at_eof()` selects who is recorded as having closed; any fault in the
`try` block is swallowed by the bare `except`, and the `finally` stamps
`state['closed'] = time.time()` unconditionally. -/
def closeConnection (env : StreamEnv) (now : Nat) (st : ConnState) : CloseOutcome :=
  if env.isClosing then
    { state := st, branch := none, handshakeCompleted := false }
  else
    { state := { st with closed := some now }
      branch := some (if env.atEof then CloseBranch.byServer else CloseBranch.byClient)
      handshakeCompleted := !env.stepFault }

/-! ## Lifecycle controller shutdown (client/base.py `__aexit__`, `connected`) -/

/-- The client instance's own mutable references: `self._connection` and
`self._handler` (the latter abstracted to whether a handler task is stored). -/
structure ClientState where
  conn : Option Connection
  handler : Bool
deriving DecidableEq, Repr

/-- `IPCSocketClient.connected` (lines 119-124):
`self._connection and not self._connection.state['closed']` under Python
truthiness. -/
def connected (s : ClientState) : Bool :=
  match s.conn with
  | none => false
  | some c => !optNatTruthy c.state.closed

/-- Observable outcome of one `__aexit__` call: the client state afterwards,
the final state of the connection object released by this call (`none` when
the call touched no connection), and whether this call stamped `closed`. -/
structure AexitOutcome where
  client : ClientState
  releasedConn : Option Connection
  stamped : Bool
deriving DecidableEq, Repr

/-- `IPCSocketClient.__aexit__` (lines 84-111): returns immediately unless
`connected()`; otherwise snapshots and nulls out `_handler`/`_connection`,
runs the no-op `_pre_disconnect` hook, cancels the handler, runs
`closeConnection` on the snapshot, then the no-op `_post_disconnect` hook.
The trailing `super().__aexit__` is modelled from the spec as context-manager
bookkeeping with no effect on the state observed here
(`freedm.utils.async.BlockingContextManager` is not among the sources). -/
def aexit (env : StreamEnv) (now : Nat) (s : ClientState) : AexitOutcome :=
  if connected s then
    match s.conn with
    | none =>
        { client := { conn := none, handler := false }, releasedConn := none, stamped := false }
    | some c =>
        { client := { conn := none, handler := false }
          releasedConn := some { c with state := (closeConnection env now c.state).state }
          stamped := (closeConnection env now c.state).branch.isSome }
  else
    { client := s, releasedConn := none, stamped := false }

/-! ## Read loop (client/base.py `_handleConnection`, lines 218-263)

The stream is modelled by a script of read events chosen by the environment:
each event is what one `await connection.reader.read(...)` call produces —
either a batch of available bytes (which `read(n)` truncates to the request),
or one of the exceptions the source catches.  An exhausted script models
`reader.at_eof()` becoming true. -/

/-- One read call's outcome, as produced by the environment. -/
inductive ReadEvent where
  | data (bytes : List Nat)
  | cancelled
  | reset
  | fault
deriving DecidableEq, Repr

/-- The configuration fields of `IPCSocketClient.__init__` that the read loop
consults. -/
structure ClientConfig where
  limit : Option Nat
  chunksize : Option Nat
  mode : Option ConnectionType
deriving DecidableEq, Repr

/-- Why the `while` loop stopped without raising: `eof` for
`reader.at_eof()`, `limitStop` for the chunked-budget `break`, and the three
`except` branches that `break`. -/
inductive LoopBreakCause where
  | eof
  | limitStop
  | cancelled
  | reset
  | readFault
deriving DecidableEq, Repr

/-- Every way `_handleConnection` can end, the loop breaks above plus the
handler fault that is re-raised as `freedmIPCMessageHandler`. -/
inductive LoopExitCause where
  | eof
  | limitStop
  | cancelled
  | reset
  | readFault
  | handlerFault
deriving DecidableEq, Repr

def LoopBreakCause.toExitCause : LoopBreakCause → LoopExitCause
  | .eof => .eof
  | .limitStop => .limitStop
  | .cancelled => .cancelled
  | .reset => .reset
  | .readFault => .readFault

/-- Running tallies of one loop run: messages dispatched to `handleMessage`
(in order), the source's `chunks` counter, and the number of read calls
issued (each consumed event is one read call). -/
structure LoopAcc where
  messages : List (List Nat)
  chunks : Nat
  reads : Nat
deriving DecidableEq, Repr

/-- The chunked-mode budget test
`self.limit and self.limit - chunks * self.chunksize < self.chunksize`
(line 232), in Python's unbounded signed integer arithmetic. -/
def budgetBreak (cfg : ClientConfig) (chunks : Nat) : Bool :=
  optNatTruthy cfg.limit &&
    decide ((cfg.limit.getD 0 : Int) - (chunks : Int) * (cfg.chunksize.getD 0 : Int)
      < (cfg.chunksize.getD 0 : Int))

/-- `reader.read(request)` truncates the available bytes to the request;
`none` is the unbounded request `read(-1)`. -/
def readTake (request : Option Nat) (bytes : List Nat) : List Nat :=
  match request with
  | none => bytes
  | some n => bytes.take n

/-- Lines 249-260: `if not len(raw) == 0`, construct the message, dispatch to
`handleMessage`; a handler fault is re-raised (`.error`), anything else
continues the loop (`.ok`).  `handlerOk raw` says whether `handleMessage`
completes without fault on this payload. -/
def dispatch (handlerOk : List Nat → Bool) (raw : List Nat) (acc : LoopAcc) :
    Except LoopAcc LoopAcc :=
  if raw.length = 0 then Except.ok acc
  else if handlerOk raw then Except.ok { acc with messages := acc.messages ++ [raw] }
  else Except.error { acc with messages := acc.messages ++ [raw] }

/-- The `while not connection.reader.at_eof()` loop of `_handleConnection`:
`.ok (acc, cause)` when the loop ends by `break` or end-of-input, `.error acc`
when a handler fault is raised out of the coroutine. -/
def loopAux (cfg : ClientConfig) (handlerOk : List Nat → Bool) :
    List ReadEvent → LoopAcc → Except LoopAcc (LoopAcc × LoopBreakCause)
  | [], acc => Except.ok (acc, LoopBreakCause.eof)
  | e :: rest, acc =>
    if optNatTruthy cfg.chunksize then
      if budgetBreak cfg acc.chunks then Except.ok (acc, LoopBreakCause.limitStop)
      else
        match e with
        | ReadEvent.data bs =>
          match dispatch handlerOk (bs.take (cfg.chunksize.getD 0))
              { acc with chunks := acc.chunks + 1, reads := acc.reads + 1 } with
          | Except.ok acc1 => loopAux cfg handlerOk rest acc1
          | Except.error acc1 => Except.error acc1
        | ReadEvent.cancelled =>
            Except.ok ({ acc with reads := acc.reads + 1 }, LoopBreakCause.cancelled)
        | ReadEvent.reset =>
            Except.ok ({ acc with reads := acc.reads + 1 }, LoopBreakCause.reset)
        | ReadEvent.fault =>
            Except.ok ({ acc with reads := acc.reads + 1 }, LoopBreakCause.readFault)
    else
      match e with
      | ReadEvent.data bs =>
        match dispatch handlerOk
            (readTake (if optNatTruthy cfg.limit then some (cfg.limit.getD 0) else none) bs)
            { acc with reads := acc.reads + 1 } with
        | Except.ok acc1 => loopAux cfg handlerOk rest acc1
        | Except.error acc1 => Except.error acc1
      | ReadEvent.cancelled =>
          Except.ok ({ acc with reads := acc.reads + 1 }, LoopBreakCause.cancelled)
      | ReadEvent.reset =>
          Except.ok ({ acc with reads := acc.reads + 1 }, LoopBreakCause.reset)
      | ReadEvent.fault =>
          Except.ok ({ acc with reads := acc.reads + 1 }, LoopBreakCause.readFault)

/-- Observable summary of one `_handleConnection` run. -/
structure HandleResult where
  messages : List (List Nat)
  cause : LoopExitCause
  chunks : Nat
  reads : Nat
  closeInvoked : Bool
deriving DecidableEq, Repr

/-- `_handleConnection` end to end: run the loop from fresh counters; when it
ends by `break`/end-of-input, execution reaches line 263 and
`await self.close()` is invoked; when the handler fault is raised (line 260),
the coroutine ends there and `close()` is never reached. -/
def handleConnectionRun (cfg : ClientConfig) (handlerOk : List Nat → Bool)
    (script : List ReadEvent) : HandleResult :=
  match loopAux cfg handlerOk script { messages := [], chunks := 0, reads := 0 } with
  | Except.ok (acc, cause) =>
      { messages := acc.messages, cause := cause.toExitCause, chunks := acc.chunks,
        reads := acc.reads, closeInvoked := true }
  | Except.error acc =>
      { messages := acc.messages, cause := LoopExitCause.handlerFault, chunks := acc.chunks,
        reads := acc.reads, closeInvoked := false }

/-- The accumulator a finished loop run left behind, whether it raised or
not. -/
def exAcc : Except LoopAcc (LoopAcc × LoopBreakCause) → LoopAcc
  | Except.ok (acc, _) => acc
  | Except.error acc => acc

/-- Total payload bytes of a list of messages. -/
def totalBytes (msgs : List (List Nat)) : Nat :=
  (msgs.map List.length).sum

/-! ## UXD server setup (server/uxd.py `__aenter__`, lines 48-77) -/

/-- What the filesystem holds at the configured socket path. -/
inductive PathKind where
  | missing
  | file
  | dir
deriving DecidableEq, Repr

/-- How `UXDSocketServer.__aenter__` ends: server started, or a raised
`freedmIPCSocketCreation`, or a raised built-in `NameError`. -/
inductive UxdEnterOutcome where
  | started
  | creationError
  | nameError
deriving DecidableEq, Repr

/-- Outcome of the setup attempt plus whether the pre-existing regular file
was removed (`os.remove`) before binding. -/
structure UxdEnterRun where
  outcome : UxdEnterOutcome
  fileRemoved : Bool
deriving DecidableEq, Repr

/-- Python truthiness of the optional `path` string (`None` and `''` falsy). -/
def strTruthy : Option String → Bool
  | none => false
  | some s => s.length != 0

/-- `UXDSocketServer.__aenter__` setup logic.  `removeOk` is whether
`os.remove(self.path)` succeeds, `bindOk` whether socket creation and
`bind` succeed.  In the directory branch the source calls `os.rmdir()`
without its path argument, which raises `TypeError` on every execution; the
bare `except` then evaluates an f-string mentioning the name `e`, which is
unbound in that scope, so the exception that actually propagates is
`NameError` and the intended `freedmIPCSocketCreation` is never constructed. -/
def uxdEnter (path : Option String) (kind : PathKind) (removeOk bindOk : Bool) : UxdEnterRun :=
  if !strTruthy path then { outcome := UxdEnterOutcome.creationError, fileRemoved := false }
  else
    match kind with
    | PathKind.dir => { outcome := UxdEnterOutcome.nameError, fileRemoved := false }
    | PathKind.file =>
        if removeOk then
          if bindOk then { outcome := UxdEnterOutcome.started, fileRemoved := true }
          else { outcome := UxdEnterOutcome.creationError, fileRemoved := true }
        else { outcome := UxdEnterOutcome.creationError, fileRemoved := false }
    | PathKind.missing =>
        if bindOk then { outcome := UxdEnterOutcome.started, fileRemoved := false }
        else { outcome := UxdEnterOutcome.creationError, fileRemoved := false }

/-! ## Sample values used by witnesses -/

def sampleEnvOpen : StreamEnv :=
  { isClosing := false, atEof := false, canWriteEof := true, stepFault := false }

def sampleEnvFaulty : StreamEnv :=
  { isClosing := false, atEof := true, canWriteEof := false, stepFault := true }

def sampleState : ConnState :=
  { mode := ConnectionType.PERSISTENT, created := 5, updated := 6, closed := none }

def sampleConn : Connection :=
  { pid := none, uid := none, gid := none, client_address := none, server_address := none,
    state := sampleState }


def sampleCred : List Nat :=
  [1, 0, 0, 0, 2, 0, 0, 0, 255, 255, 255, 255]

/-! ## Helper lemmas -/

lemma totalBytes_append (ms : List (List Nat)) (raw : List Nat) :
    totalBytes (ms ++ [raw]) = totalBytes ms + raw.length := by
  simp [totalBytes]

lemma dispatch_ok_inv {handlerOk : List Nat → Bool} {raw : List Nat} {acc acc1 : LoopAcc}
    (h : dispatch handlerOk raw acc = Except.ok acc1) :
    acc1.chunks = acc.chunks ∧ acc1.reads = acc.reads ∧
      (acc1.messages = acc.messages ∨ acc1.messages = acc.messages ++ [raw]) := by
  unfold dispatch at h
  by_cases h0 : raw.length = 0
  · simp [h0] at h
    subst h
    exact ⟨rfl, rfl, Or.inl rfl⟩
  · by_cases h1 : handlerOk raw
    · simp [h0, h1] at h
      subst h
      exact ⟨rfl, rfl, Or.inr rfl⟩
    · simp [h0, h1] at h

lemma dispatch_error_inv {handlerOk : List Nat → Bool} {raw : List Nat} {acc acc1 : LoopAcc}
    (h : dispatch handlerOk raw acc = Except.error acc1) :
    acc1.chunks = acc.chunks ∧ acc1.reads = acc.reads ∧
      acc1.messages = acc.messages ++ [raw] := by
  unfold dispatch at h
  by_cases h0 : raw.length = 0
  · simp [h0] at h
  · by_cases h1 : handlerOk raw
    · simp [h0, h1] at h
    · simp [h0, h1] at h
      subst h
      exact ⟨rfl, rfl, rfl⟩

lemma not_budgetBreak_pass {C L k : Nat} (hC : 0 < C) (hL : 0 < L) {md : Option ConnectionType}
    (h : budgetBreak { limit := some L, chunksize := some C, mode := md } k = false) :
    k + 1 ≤ L / C := by
  have hne : (L != 0) = true := by simp; omega
  simp only [budgetBreak, optNatTruthy, Option.getD_some, hne, Bool.true_and,
    decide_eq_false_iff_not, Int.not_lt] at h
  rw [Nat.le_div_iff_mul_le hC]
  have e : ((k : Int) + 1) * (C : Int) = (k : Int) * (C : Int) + (C : Int) := by ring
  have h3 : ((k : Int) + 1) * (C : Int) ≤ (L : Int) := by
    rw [e]
    linarith [h]
  exact_mod_cast h3

lemma handleConnectionRun_fields (cfg : ClientConfig) (handlerOk : List Nat → Bool)
    (script : List ReadEvent) :
    (handleConnectionRun cfg handlerOk script).messages =
      (exAcc (loopAux cfg handlerOk script { messages := [], chunks := 0, reads := 0 })).messages ∧
    (handleConnectionRun cfg handlerOk script).reads =
      (exAcc (loopAux cfg handlerOk script { messages := [], chunks := 0, reads := 0 })).reads ∧
    (handleConnectionRun cfg handlerOk script).chunks =
      (exAcc (loopAux cfg handlerOk script { messages := [], chunks := 0, reads := 0 })).chunks := by
  unfold handleConnectionRun exAcc
  rcases loopAux cfg handlerOk script { messages := [], chunks := 0, reads := 0 } with acc | ⟨acc, cause⟩
  · exact ⟨rfl, rfl, rfl⟩
  · exact ⟨rfl, rfl, rfl⟩

lemma chunked_total_aux (C L : Nat) (hC : 0 < C) (hL : 0 < L) (handlerOk : List Nat → Bool)
    (md : Option ConnectionType) :
    ∀ (script : List ReadEvent) (acc : LoopAcc), acc.chunks ≤ L / C →
      totalBytes (exAcc (loopAux { limit := some L, chunksize := some C, mode := md }
          handlerOk script acc)).messages ≤
        totalBytes acc.messages + (L / C - acc.chunks) * C := by
  intro script
  induction script with
  | nil =>
    intro acc _
    simp [loopAux, exAcc]
  | cons e rest ih =>
    intro acc hacc
    have hct : optNatTruthy (some C) = true := by
      simp [optNatTruthy]
      omega
    by_cases hb : budgetBreak { limit := some L, chunksize := some C, mode := md } acc.chunks
    · simp [loopAux, hct, hb, exAcc]
    · rw [Bool.not_eq_true] at hb
      have hstep : acc.chunks + 1 ≤ L / C := not_budgetBreak_pass hC hL hb
      cases e with
      | data bs =>
        simp only [loopAux, hct, hb, Option.getD_some, if_true, Bool.false_eq_true, if_false]
        split
        case _ acc1 heq =>
          obtain ⟨hc1, hr1, hm1⟩ := dispatch_ok_inv heq
          simp only [] at hc1 hr1 hm1
          have hrec := ih acc1 (by omega)
          have htake : (bs.take C).length ≤ C := List.length_take_le C bs
          have hsucc : C + (L / C - (acc.chunks + 1)) * C = (L / C - acc.chunks) * C := by
            have hx : L / C - acc.chunks = (L / C - (acc.chunks + 1)) + 1 := by omega
            rw [hx, Nat.succ_mul]
            ring
          rcases hm1 with hm1 | hm1 <;>
            rw [hc1, hm1] at hrec
          · calc totalBytes (exAcc (loopAux { limit := some L, chunksize := some C, mode := md }
                  handlerOk rest acc1)).messages
                ≤ totalBytes acc.messages + (L / C - (acc.chunks + 1)) * C := hrec
              _ ≤ totalBytes acc.messages + (L / C - acc.chunks) * C := by
                  have : (L / C - (acc.chunks + 1)) * C ≤ (L / C - acc.chunks) * C :=
                    Nat.mul_le_mul_right C (by omega)
                  omega
          · rw [totalBytes_append] at hrec
            calc totalBytes (exAcc (loopAux { limit := some L, chunksize := some C, mode := md }
                  handlerOk rest acc1)).messages
                ≤ totalBytes acc.messages + (bs.take C).length
                    + (L / C - (acc.chunks + 1)) * C := hrec
              _ ≤ totalBytes acc.messages + (C + (L / C - (acc.chunks + 1)) * C) := by omega
              _ = totalBytes acc.messages + (L / C - acc.chunks) * C := by rw [hsucc]
        case _ acc1 heq =>
          obtain ⟨hc1, hr1, hm1⟩ := dispatch_error_inv heq
          simp only [] at hc1 hr1 hm1
          simp only [exAcc, hm1, totalBytes_append]
          have htake : (bs.take C).length ≤ C := List.length_take_le C bs
          have hle : C ≤ (L / C - acc.chunks) * C :=
            Nat.le_mul_of_pos_left C (by omega)
          omega
      | cancelled => simp [loopAux, hct, hb, exAcc]
      | reset => simp [loopAux, hct, hb, exAcc]
      | fault => simp [loopAux, hct, hb, exAcc]

lemma chunked_reads_aux (C L : Nat) (hC : 0 < C) (hL : 0 < L) (handlerOk : List Nat → Bool)
    (md : Option ConnectionType) :
    ∀ (script : List ReadEvent) (acc : LoopAcc), acc.chunks ≤ L / C → acc.reads ≤ acc.chunks →
      (exAcc (loopAux { limit := some L, chunksize := some C, mode := md }
        handlerOk script acc)).reads ≤ L / C := by
  intro script
  induction script with
  | nil =>
    intro acc h1 h2
    simp only [loopAux, exAcc]
    omega
  | cons e rest ih =>
    intro acc h1 h2
    have hct : optNatTruthy (some C) = true := by
      simp [optNatTruthy]
      omega
    by_cases hb : budgetBreak { limit := some L, chunksize := some C, mode := md } acc.chunks
    · simp only [loopAux, hct, hb, if_true, exAcc]
      omega
    · rw [Bool.not_eq_true] at hb
      have hstep : acc.chunks + 1 ≤ L / C := not_budgetBreak_pass hC hL hb
      cases e with
      | data bs =>
        simp only [loopAux, hct, hb, Option.getD_some, if_true, Bool.false_eq_true, if_false]
        split
        case _ acc1 heq =>
          obtain ⟨hc1, hr1, _⟩ := dispatch_ok_inv heq
          simp only [] at hc1 hr1
          exact ih acc1 (by omega) (by omega)
        case _ acc1 heq =>
          obtain ⟨hc1, hr1, _⟩ := dispatch_error_inv heq
          simp only [] at hc1 hr1
          simp only [exAcc]
          omega
      | cancelled =>
        simp only [loopAux, hct, hb, if_true, Bool.false_eq_true, if_false, exAcc]
        omega
      | reset =>
        simp only [loopAux, hct, hb, if_true, Bool.false_eq_true, if_false, exAcc]
        omega
      | fault =>
        simp only [loopAux, hct, hb, if_true, Bool.false_eq_true, if_false, exAcc]
        omega

lemma nonchunked_msgs_aux (L : Nat) (hL : 0 < L) (handlerOk : List Nat → Bool)
    (md : Option ConnectionType) :
    ∀ (script : List ReadEvent) (acc : LoopAcc), (∀ m ∈ acc.messages, m.length ≤ L) →
      ∀ m ∈ (exAcc (loopAux { limit := some L, chunksize := none, mode := md }
        handlerOk script acc)).messages, m.length ≤ L := by
  intro script
  induction script with
  | nil =>
    intro acc hinv
    simpa [loopAux, exAcc] using hinv
  | cons e rest ih =>
    intro acc hinv
    have hcf : optNatTruthy (none : Option Nat) = false := rfl
    have hLt : optNatTruthy (some L) = true := by
      simp [optNatTruthy]
      omega
    cases e with
    | data bs =>
      simp only [loopAux, hcf, Bool.false_eq_true, if_false, hLt, if_true, Option.getD_some,
        readTake]
      split
      case _ acc1 heq =>
        obtain ⟨_, _, hm1⟩ := dispatch_ok_inv heq
        simp only [] at hm1
        refine ih acc1 ?_
        intro m hm
        rcases hm1 with hm1 | hm1 <;> rw [hm1] at hm
        · exact hinv m hm
        · rcases List.mem_append.mp hm with hm | hm
          · exact hinv m hm
          · rw [List.mem_singleton.mp hm]
            exact List.length_take_le L bs
      case _ acc1 heq =>
        obtain ⟨_, _, hm1⟩ := dispatch_error_inv heq
        simp only [] at hm1
        simp only [exAcc, hm1]
        intro m hm
        rcases List.mem_append.mp hm with hm | hm
        · exact hinv m hm
        · rw [List.mem_singleton.mp hm]
          exact List.length_take_le L bs
    | cancelled =>
      simp only [loopAux, hcf, Bool.false_eq_true, if_false, exAcc]
      exact hinv
    | reset =>
      simp only [loopAux, hcf, Bool.false_eq_true, if_false, exAcc]
      exact hinv
    | fault =>
      simp only [loopAux, hcf, Bool.false_eq_true, if_false, exAcc]
      exact hinv

lemma nonchunked_total_aux (L : Nat) (hL : 0 < L) (handlerOk : List Nat → Bool)
    (md : Option ConnectionType) :
    ∀ (script : List ReadEvent) (acc : LoopAcc),
      totalBytes (exAcc (loopAux { limit := some L, chunksize := none, mode := md }
        handlerOk script acc)).messages + acc.reads * L ≤
      totalBytes acc.messages +
        (exAcc (loopAux { limit := some L, chunksize := none, mode := md }
          handlerOk script acc)).reads * L := by
  intro script
  induction script with
  | nil =>
    intro acc
    simp [loopAux, exAcc]
  | cons e rest ih =>
    intro acc
    have hcf : optNatTruthy (none : Option Nat) = false := rfl
    have hLt : optNatTruthy (some L) = true := by
      simp [optNatTruthy]
      omega
    cases e with
    | data bs =>
      simp only [loopAux, hcf, Bool.false_eq_true, if_false, hLt, if_true, Option.getD_some,
        readTake]
      split
      case _ acc1 heq =>
        obtain ⟨_, hr1, hm1⟩ := dispatch_ok_inv heq
        simp only [] at hr1 hm1
        have hrec := ih acc1
        have htake : (bs.take L).length ≤ L := List.length_take_le L bs
        have hsm : (acc.reads + 1) * L = acc.reads * L + L := Nat.succ_mul acc.reads L
        rcases hm1 with hm1 | hm1 <;> rw [hr1, hm1] at hrec
        · omega
        · rw [totalBytes_append] at hrec
          omega
      case _ acc1 heq =>
        obtain ⟨_, hr1, hm1⟩ := dispatch_error_inv heq
        simp only [] at hr1 hm1
        simp only [exAcc, hm1, hr1, totalBytes_append]
        have htake : (bs.take L).length ≤ L := List.length_take_le L bs
        have hsm : (acc.reads + 1) * L = acc.reads * L + L := Nat.succ_mul acc.reads L
        omega
    | cancelled =>
      simp only [loopAux, hcf, Bool.false_eq_true, if_false, exAcc]
      have hsm : (acc.reads + 1) * L = acc.reads * L + L := Nat.succ_mul acc.reads L
      omega
    | reset =>
      simp only [loopAux, hcf, Bool.false_eq_true, if_false, exAcc]
      have hsm : (acc.reads + 1) * L = acc.reads * L + L := Nat.succ_mul acc.reads L
      omega
    | fault =>
      simp only [loopAux, hcf, Bool.false_eq_true, if_false, exAcc]
      have hsm : (acc.reads + 1) * L = acc.reads * L + L := Nat.succ_mul acc.reads L
      omega

lemma getD_lt_256 {bs : List Nat} (hb : ∀ b ∈ bs, b < 256) {i : Nat} (h : i < bs.length) :
    bs.getD i 0 < 256 := by
  rw [List.getD_eq_getElem?_getD, List.getElem?_eq_getElem h]
  exact hb _ (List.getElem_mem h)

lemma toSigned32_range {u : Nat} (h : u < 4294967296) :
    -2147483648 ≤ toSigned32 u ∧ toSigned32 u < 2147483648 := by
  unfold toSigned32
  have h31 : (2 : Nat) ^ 31 = 2147483648 := by norm_num
  have h32 : (2 : Int) ^ 32 = 4294967296 := by norm_num
  rw [h31, h32]
  split <;> constructor <;> omega

lemma int32At_range {bs : List Nat} (hb : ∀ b ∈ bs, b < 256) {i : Nat}
    (h : i + 3 < bs.length) :
    -2147483648 ≤ int32At bs i ∧ int32At bs i < 2147483648 := by
  have h0 := getD_lt_256 hb (show i < bs.length by omega)
  have h1 := getD_lt_256 hb (show i + 1 < bs.length by omega)
  have h2 := getD_lt_256 hb (show i + 2 < bs.length by omega)
  have h3 := getD_lt_256 hb (show i + 3 < bs.length by omega)
  apply toSigned32_range
  unfold le32
  omega

/-! ## Claim theorems -/

/-- C1 (counterexample): the claim that the shutdown path is invoked after
*every* loop termination, including a handler fault, is false: when the
message handler faults, `_handleConnection` raises `freedmIPCMessageHandler`
at line 260, so the `await self.close()` at line 263 is never reached. -/
theorem close_skipped_on_handler_fault_cex :
    (handleConnectionRun { limit := none, chunksize := none, mode := none } (fun _ => false)
        [ReadEvent.data [1]]).cause = LoopExitCause.handlerFault ∧
    (handleConnectionRun { limit := none, chunksize := none, mode := none } (fun _ => false)
        [ReadEvent.data [1]]).closeInvoked = false := by
  decide

/-- C1 (amended): for every configuration, handler behaviour and read script,
the read loop invokes the controller's shutdown path `close()` exactly when it
did not terminate by a handler fault — i.e. after clean end-of-input,
cancellation, peer reset, any other read fault, and the chunked-budget stop;
on a handler fault the wrapped error propagates instead and `close()` is not
invoked by the loop. -/
theorem close_invoked_iff_no_handler_fault (cfg : ClientConfig) (handlerOk : List Nat → Bool)
    (script : List ReadEvent) :
    (handleConnectionRun cfg handlerOk script).closeInvoked = true ↔
      (handleConnectionRun cfg handlerOk script).cause ≠ LoopExitCause.handlerFault := by
  unfold handleConnectionRun
  rcases h : loopAux cfg handlerOk script { messages := [], chunks := 0, reads := 0 } with
    acc | ⟨acc, cause⟩
  · simp
  · simp only [true_iff]
    cases cause <;> simp [LoopBreakCause.toExitCause]

/-- C1 (witness): the equivalence evaluated at a concrete clean-end-of-input
run, where the loop does invoke `close()`. -/
theorem close_invoked_iff_no_handler_fault_witness :
    (handleConnectionRun { limit := none, chunksize := none, mode := none } (fun _ => true)
        [ReadEvent.data [1]]).closeInvoked = true ↔
      (handleConnectionRun { limit := none, chunksize := none, mode := none } (fun _ => true)
        [ReadEvent.data [1]]).cause ≠ LoopExitCause.handlerFault :=
  close_invoked_iff_no_handler_fault { limit := none, chunksize := none, mode := none }
    (fun _ => true) [ReadEvent.data [1]]

/-- C2 (counterexample): the claim that `closed` is stamped for *every*
Connection passed to `closeConnection` is false: when
`writer.transport.is_closing()` is already true the entire body — including
the `finally` that stamps `closed` — is skipped. -/
theorem closed_not_stamped_when_transport_closing_cex :
    (closeConnection { isClosing := true, atEof := false, canWriteEof := true, stepFault := false }
        9 sampleState).state.closed = none ∧
    sampleState.closed = none := by
  decide

/-- C2 (amended): for every Connection whose writer transport is not already
closing, `closed` is stamped by the time `closeConnection` returns, regardless
of whether the half-close/flush/close handshake steps completed cleanly or
faulted (the bare `except` swallows every handshake fault and the
`finally`-step always runs). -/
theorem closeConnection_stamps_closed (env : StreamEnv) (now : Nat) (st : ConnState)
    (h : env.isClosing = false) :
    (closeConnection env now st).state.closed = some now ∧
    (closeConnection env now st).state = { st with closed := some now } := by
  simp [closeConnection, h]

/-- C2 (witness): a run in which every handshake step faults (and the reader
is at end-of-input) still stamps `closed`. -/
theorem closeConnection_stamps_closed_witness :
    (closeConnection sampleEnvFaulty 9 sampleState).state.closed = some 9 ∧
    (closeConnection sampleEnvFaulty 9 sampleState).state =
      { sampleState with closed := some 9 } :=
  closeConnection_stamps_closed sampleEnvFaulty 9 sampleState rfl

/-- C3: invoking `__aexit__` twice has the same observable effect as invoking
it once — the second call leaves the client state unchanged, touches no
connection object, stamps nothing (so `closed` is stamped at most once), and
raises nothing (the model is a total function); invoking it on a never-opened
instance (`_connection is None`) is a no-op. -/
theorem aexit_idempotent (env env2 : StreamEnv) (now now2 : Nat) (s : ClientState) :
    aexit env2 now2 (aexit env now s).client =
      { client := (aexit env now s).client, releasedConn := none, stamped := false } ∧
    (s.conn = none →
      aexit env now s = { client := s, releasedConn := none, stamped := false }) := by
  constructor
  · by_cases h : connected s
    · rcases hs : s.conn with _ | c
      · rw [connected, hs] at h
        simp at h
      · have hcl : optNatTruthy c.state.closed = false := by
          rw [connected, hs] at h
          simpa using h
        simp [aexit, hs, hcl, connected]
    · rw [Bool.not_eq_true] at h
      simp [aexit, h]
  · intro hnone
    have hcf : connected s = false := by simp [connected, hnone]
    simp [aexit, hcf]

/-- C3 (witness): the double-call equality at a concrete open connection, and
the never-opened no-op at the concrete empty client state. -/
theorem aexit_idempotent_witness :
    (aexit sampleEnvOpen 8 (aexit sampleEnvOpen 7
        { conn := some sampleConn, handler := true }).client =
      { client := (aexit sampleEnvOpen 7
          { conn := some sampleConn, handler := true }).client,
        releasedConn := none, stamped := false }) ∧
    aexit sampleEnvOpen 7 { conn := none, handler := false } =
      { client := { conn := none, handler := false }, releasedConn := none, stamped := false } :=
  ⟨(aexit_idempotent sampleEnvOpen sampleEnvOpen 7 8
      { conn := some sampleConn, handler := true }).1,
   (aexit_idempotent sampleEnvOpen sampleEnvOpen 7 7
      { conn := none, handler := false }).2 rfl⟩

/-- C4: for every chunk size `C > 0` and total limit `L ≥ C`, the chunked
read loop delivers at most `⌊L/C⌋·C` total payload bytes to the handler, for
every read script and handler behaviour — it stops (as a graceful end)
before issuing a read once the remaining budget is below one chunk. -/
theorem chunked_total_bytes_bound (C L : Nat) (handlerOk : List Nat → Bool)
    (md : Option ConnectionType) (script : List ReadEvent) (hC : 0 < C) (hCL : C ≤ L) :
    totalBytes (handleConnectionRun { limit := some L, chunksize := some C, mode := md }
      handlerOk script).messages ≤ L / C * C := by
  have hL : 0 < L := lt_of_lt_of_le hC hCL
  rw [(handleConnectionRun_fields _ handlerOk script).1]
  have h := chunked_total_aux C L hC hL handlerOk md script
    { messages := [], chunks := 0, reads := 0 } (by simp)
  simpa [totalBytes] using h

/-- C4 (witness): the spec's scenario `chunksize = 4, limit = 10` with ten
incoming bytes: the bound instantiates, and the loop delivers exactly two
4-byte messages, stopping at the budget with no third 2-byte message. -/
theorem chunked_total_bytes_bound_witness :
    0 < 4 ∧ 4 ≤ 10 ∧
    totalBytes (handleConnectionRun { limit := some 10, chunksize := some 4, mode := none }
      (fun _ => true)
      [ReadEvent.data [1, 2, 3, 4], ReadEvent.data [5, 6, 7, 8],
        ReadEvent.data [9, 10]]).messages ≤ 10 / 4 * 4 ∧
    (handleConnectionRun { limit := some 10, chunksize := some 4, mode := none }
      (fun _ => true)
      [ReadEvent.data [1, 2, 3, 4], ReadEvent.data [5, 6, 7, 8],
        ReadEvent.data [9, 10]]).messages = [[1, 2, 3, 4], [5, 6, 7, 8]] ∧
    (handleConnectionRun { limit := some 10, chunksize := some 4, mode := none }
      (fun _ => true)
      [ReadEvent.data [1, 2, 3, 4], ReadEvent.data [5, 6, 7, 8],
        ReadEvent.data [9, 10]]).cause = LoopExitCause.limitStop :=
  ⟨by decide, by decide,
    chunked_total_bytes_bound 4 10 (fun _ => true) none
      [ReadEvent.data [1, 2, 3, 4], ReadEvent.data [5, 6, 7, 8], ReadEvent.data [9, 10]]
      (by decide) (by decide),
    by decide, by decide⟩

/-- C5 (counterexample): the claim that `limit = 0` yields no messages is
false: in `read(self.limit or -1)` a configured limit of `0` is falsy, so the
read is unbounded (`read(-1)`) and incoming bytes are delivered. -/
theorem limit_zero_delivers_messages_cex :
    (handleConnectionRun { limit := some 0, chunksize := none, mode := none } (fun _ => true)
        [ReadEvent.data [1, 2]]).messages = [[1, 2]] ∧
    [[1, 2]] ≠ ([] : List (List Nat)) := by
  decide

/-- C5 (amended): when a limit `L > 0` is configured and no chunk size is
set, each message delivered to the handler carries at most `L` payload bytes
(an oversized incoming write is truncated by `read(L)`); a configured limit
of `0` is treated as no limit at all — the read is unbounded and messages
are still delivered. -/
theorem nonchunked_message_length_le_limit (L : Nat) (handlerOk : List Nat → Bool)
    (md : Option ConnectionType) (script : List ReadEvent) (hL : 0 < L) :
    ∀ m ∈ (handleConnectionRun { limit := some L, chunksize := none, mode := md }
      handlerOk script).messages, m.length ≤ L := by
  rw [(handleConnectionRun_fields _ handlerOk script).1]
  exact nonchunked_msgs_aux L hL handlerOk md script
    { messages := [], chunks := 0, reads := 0 } (by simp)

/-- C5 (witness): a 5-byte write against `limit = 3` is delivered truncated,
each message within the limit. -/
theorem nonchunked_message_length_le_limit_witness :
    0 < 3 ∧
    ∀ m ∈ (handleConnectionRun { limit := some 3, chunksize := none, mode := none }
      (fun _ => true) [ReadEvent.data [1, 2, 3, 4, 5]]).messages, m.length ≤ 3 :=
  ⟨by decide,
    nonchunked_message_length_le_limit 3 (fun _ => true) none
      [ReadEvent.data [1, 2, 3, 4, 5]] (by decide)⟩

/-- C6 (counterexample): the claim that `limit` caps the *total* bytes read
per connection in non-chunked mode is false: the loop issues `read(limit)`
again on every iteration, so two 4-byte deliveries against `limit = 4` hand
the handler 8 bytes in total. -/
theorem nonchunked_total_exceeds_limit_cex :
    totalBytes (handleConnectionRun { limit := some 4, chunksize := none, mode := none }
      (fun _ => true) [ReadEvent.data [1, 2, 3, 4], ReadEvent.data [5, 6, 7, 8]]).messages = 8 ∧
    ¬ totalBytes (handleConnectionRun { limit := some 4, chunksize := none, mode := none }
      (fun _ => true) [ReadEvent.data [1, 2, 3, 4], ReadEvent.data [5, 6, 7, 8]]).messages ≤ 4 := by
  decide

/-- C6 (amended): with a limit `L > 0` and no chunk size, `L` is a per-read
cap, not a total cap: the total payload delivered over a whole run is bounded
by `L` times the number of read calls, and each single read contributes at
most `L` bytes. -/
theorem nonchunked_total_le_reads_mul_limit (L : Nat) (handlerOk : List Nat → Bool)
    (md : Option ConnectionType) (script : List ReadEvent) (hL : 0 < L) :
    totalBytes (handleConnectionRun { limit := some L, chunksize := none, mode := md }
      handlerOk script).messages ≤
    (handleConnectionRun { limit := some L, chunksize := none, mode := md }
      handlerOk script).reads * L := by
  rw [(handleConnectionRun_fields _ handlerOk script).1,
    (handleConnectionRun_fields _ handlerOk script).2.1]
  have h := nonchunked_total_aux L hL handlerOk md script
    { messages := [], chunks := 0, reads := 0 }
  simpa [totalBytes] using h

/-- C6 (witness): the per-read bound instantiated at `limit = 3` with a
single oversized write. -/
theorem nonchunked_total_le_reads_mul_limit_witness :
    0 < 3 ∧
    totalBytes (handleConnectionRun { limit := some 3, chunksize := none, mode := none }
      (fun _ => true) [ReadEvent.data [1, 2, 3, 4]]).messages ≤
    (handleConnectionRun { limit := some 3, chunksize := none, mode := none }
      (fun _ => true) [ReadEvent.data [1, 2, 3, 4]]).reads * 3 :=
  ⟨by decide,
    nonchunked_total_le_reads_mul_limit 3 (fun _ => true) none
      [ReadEvent.data [1, 2, 3, 4]] (by decide)⟩

/-- C7: connection assembly is where the transports differ — the UXD adapter
decodes the fixed-size 12-byte peer-credential record into three signed
32-bit integers stored as `pid`, `uid`, `gid`, while the network-stream
adapter assembles the same-shaped Connection (equal in every other field)
with `pid`, `uid` and `gid` all null; the decoded values lie in the signed
32-bit range `[-2^31, 2^31)`. -/
theorem transport_adapters_differ_only_in_credentials (md : Option ConnectionType) (now : Nat)
    (cred : List Nat) (hlen : cred.length = 12) (hb : ∀ b ∈ cred, b < 256) :
    uxdAssembleConnection md now cred =
      { clientAssembleConnection md now with
          pid := some (int32At cred 0), uid := some (int32At cred 4),
          gid := some (int32At cred 8) } ∧
    (clientAssembleConnection md now).pid = none ∧
    (clientAssembleConnection md now).uid = none ∧
    (clientAssembleConnection md now).gid = none ∧
    (-2147483648 ≤ int32At cred 0 ∧ int32At cred 0 < 2147483648) ∧
    (-2147483648 ≤ int32At cred 4 ∧ int32At cred 4 < 2147483648) ∧
    (-2147483648 ≤ int32At cred 8 ∧ int32At cred 8 < 2147483648) := by
  refine ⟨rfl, rfl, rfl, rfl, ?_, ?_, ?_⟩ <;>
    exact int32At_range hb (by omega)

/-- C7 (witness): a concrete credential record decoding to
`pid = 1, uid = 2, gid = -1` (the all-ones bytes decode to a negative signed
integer), with the structural equality instantiated. -/
theorem transport_adapters_differ_only_in_credentials_witness :
    uxdAssembleConnection none 3 sampleCred =
      { clientAssembleConnection none 3 with
          pid := some (int32At sampleCred 0), uid := some (int32At sampleCred 4),
          gid := some (int32At sampleCred 8) } ∧
    int32At sampleCred 0 = 1 ∧ int32At sampleCred 4 = 2 ∧ int32At sampleCred 8 = -1 ∧
    (-2147483648 ≤ int32At sampleCred 8 ∧ int32At sampleCred 8 < 2147483648) :=
  ⟨(transport_adapters_differ_only_in_credentials none 3 sampleCred
      (by decide) (by decide)).1,
    by decide, by decide, by decide,
    (transport_adapters_differ_only_in_credentials none 3 sampleCred
      (by decide) (by decide)).2.2.2.2.2.2⟩

/-- C8 (code bug): with an existing regular file at the configured path the
setup removes it and binds (as the claim says); but with a directory at the
path the code raises `NameError`, not `SocketCreationError`: `os.rmdir()` is
called without its path argument (a `TypeError` on every execution) and the
bare `except` handler's f-string message refers to a name `e` that is unbound
there, so formatting the intended `freedmIPCSocketCreation` message raises
`NameError` before that exception is constructed. -/
theorem uxd_dir_path_raises_nameError :
    uxdEnter (some "/run/freedm.sock") PathKind.dir true true =
      { outcome := UxdEnterOutcome.nameError, fileRemoved := false } ∧
    (uxdEnter (some "/run/freedm.sock") PathKind.dir true true).outcome ≠
      UxdEnterOutcome.creationError ∧
    uxdEnter (some "/run/freedm.sock") PathKind.file true true =
      { outcome := UxdEnterOutcome.started, fileRemoved := true } := by
  decide

/-- C9: in chunked mode with a configured total limit, the budget is
accounted in whole chunks: each read call consumes one chunk of budget even
when it returns fewer bytes, so for every read script the loop performs at
most `⌊limit/chunksize⌋` read calls. -/
theorem chunked_reads_at_most_floor (C L : Nat) (handlerOk : List Nat → Bool)
    (md : Option ConnectionType) (script : List ReadEvent) (hC : 0 < C) (hL : 0 < L) :
    (handleConnectionRun { limit := some L, chunksize := some C, mode := md }
      handlerOk script).reads ≤ L / C := by
  rw [(handleConnectionRun_fields _ handlerOk script).2.1]
  exact chunked_reads_aux C L hC hL handlerOk md script
    { messages := [], chunks := 0, reads := 0 } (by simp) (by simp)

/-- C9 (witness): `chunksize = 4, limit = 10` with every read returning a
single byte: the loop still stops after 2 reads (the budget, in chunks) with
only 2 actual payload bytes delivered — far short of the 10-byte limit. -/
theorem chunked_reads_at_most_floor_witness :
    0 < 4 ∧ 0 < 10 ∧
    (handleConnectionRun { limit := some 10, chunksize := some 4, mode := none }
      (fun _ => true) [ReadEvent.data [1], ReadEvent.data [2], ReadEvent.data [3]]).reads
        ≤ 10 / 4 ∧
    (handleConnectionRun { limit := some 10, chunksize := some 4, mode := none }
      (fun _ => true) [ReadEvent.data [1], ReadEvent.data [2], ReadEvent.data [3]]).reads = 2 ∧
    totalBytes (handleConnectionRun { limit := some 10, chunksize := some 4, mode := none }
      (fun _ => true) [ReadEvent.data [1], ReadEvent.data [2], ReadEvent.data [3]]).messages
        = 2 ∧
    (handleConnectionRun { limit := some 10, chunksize := some 4, mode := none }
      (fun _ => true) [ReadEvent.data [1], ReadEvent.data [2], ReadEvent.data [3]]).cause
        = LoopExitCause.limitStop :=
  ⟨by decide, by decide,
    chunked_reads_at_most_floor 4 10 (fun _ => true) none
      [ReadEvent.data [1], ReadEvent.data [2], ReadEvent.data [3]] (by decide) (by decide),
    by decide, by decide, by decide⟩

/-- C10: every Connection produced by either transport adapter starts in the
same initial lifecycle state: `mode` is the configured mode, defaulting to
PERSISTENT when none is configured; `created` and `updated` carry the
assembly-time stamp; `closed` is null. -/
theorem assembled_connection_initial_state (md : Option ConnectionType) (now : Nat)
    (cred : List Nat) :
    (uxdAssembleConnection md now cred).state =
      { mode := md.getD ConnectionType.PERSISTENT, created := now, updated := now,
        closed := none } ∧
    (clientAssembleConnection md now).state =
      { mode := md.getD ConnectionType.PERSISTENT, created := now, updated := now,
        closed := none } ∧
    (md = none →
      (uxdAssembleConnection md now cred).state.mode = ConnectionType.PERSISTENT ∧
      (clientAssembleConnection md now).state.mode = ConnectionType.PERSISTENT) := by
  refine ⟨rfl, rfl, ?_⟩
  rintro rfl
  exact ⟨rfl, rfl⟩

/-- C10 (witness): the initial state at a concrete assembly time with no
configured mode — both adapters default to PERSISTENT with `closed` null. -/
theorem assembled_connection_initial_state_witness :
    (uxdAssembleConnection none 7 sampleCred).state =
      { mode := ConnectionType.PERSISTENT, created := 7, updated := 7, closed := none } ∧
    (clientAssembleConnection none 7).state =
      { mode := ConnectionType.PERSISTENT, created := 7, updated := 7, closed := none } ∧
    (uxdAssembleConnection none 7 sampleCred).state.mode = ConnectionType.PERSISTENT :=
  ⟨(assembled_connection_initial_state none 7 sampleCred).1,
    (assembled_connection_initial_state none 7 sampleCred).2.1,
    ((assembled_connection_initial_state none 7 sampleCred).2.2 rfl).1⟩
